import Mathlib

/-!
# Verification of the shared-cable EV charging scheduler (`src/server.js`)

Shallow embedding of the scheduler state machine of `server.js`:

* A `ParkingSpot` document becomes `Spot`; the Mongo status strings are
  rendered as an enumeration (`'空置中'` = `idle`, `'充電中'` = `charging`,
  `'等待中'` = `waiting`, `'結束'` = `finished`).  The spec-level `Moving`
  state corresponds to status `charging` with `startTime = none`, and the
  spec-level `Charging` state to status `charging` with `startTime ≠ none`.
* A `ChargingQueue` document becomes `QueueEntry`; the Mongo `_id` used by
  `deleteOne({_id})` is modelled by a `Nat` identifier handed out from a
  counter in the scheduler state.
* Timestamps (`new Date()`, `Date.now`) are naturals counting milliseconds
  (JS dates are integral milliseconds); durations (`chargingTime`,
  `waitingTime`) are rationals, since JS computes them by floating-point
  division (`/1000`, `/(1000*60)`, `/60`) of exact millisecond deltas.
* `findOne` without a sort is `List.find?` in insertion (natural) order;
  `findOne().sort({requestTime: 1})` is the head of a stable sort by
  `requestTime`; `doc.save()` after a `findOne(pred)` is "update the first
  element matching `pred`".
* The `setTimeout` callbacks of the two dispatch paths and the two
  `setInterval` ticks are separate state transformers, fired at arbitrary
  instants by the `Reachable` relation below.
-/

/-- Spot status, mirroring the string enum of `ParkingSpotSchema`
(`'空置中'`, `'充電中'`, `'等待中'`, `'結束'`). -/
inductive Status where
  | idle
  | charging
  | waiting
  | finished
deriving DecidableEq

/-- A `ParkingSpot` document (`server.js` lines 31–45).  Optional fields are
nullable in the schema. -/
structure Spot where
  spotId : Nat
  status : Status
  startTime : Option Nat
  chargingTime : Option ℚ
  waitingTime : Option ℚ
  userId : Option String
  moveStartTime : Option Nat
deriving DecidableEq

/-- A `ChargingQueue` document (`server.js` lines 47–54), with `id` playing
the role of the Mongo `_id` captured by `deleteOne({_id: ...})`. -/
structure QueueEntry where
  id : Nat
  userId : String
  spotId : Nat
  chargingTime : ℚ
  requestTime : Nat
deriving DecidableEq

/-- The scheduler's mutable state: the spot registry and admission queue
(owned by Mongo in the source), plus the `_id` counter for queue inserts. -/
structure State where
  spots : List Spot
  queue : List QueueEntry
  nextId : Nat
deriving DecidableEq

/-- `const CABLE_MOVING_TIME = 30` (seconds), line 28. -/
def CABLE_MOVING_TIME : ℚ := 30

/-- The grace window of `checkAndResetFinishedSpots`: `secondsSinceFinish > 5`
(line 277).  The spec names this constant `FINISH_LINGER_SECONDS`. -/
def FINISH_LINGER_SECONDS : ℚ := 5

/-- Update the first element of `l` satisfying `p` by `f` (models
`findOne(pred)` followed by mutating the document and `save()`). -/
def updateFirst (l : List α) (p : α → Bool) (f : α → α) : List α :=
  match l with
  | [] => []
  | a :: t => if p a then f a :: t else a :: updateFirst t p f

/-- Delete the first element of `l` satisfying `p` (models Mongo
`deleteOne(pred)`, which removes the first match in natural order). -/
def deleteFirst (l : List α) (p : α → Bool) : List α :=
  match l with
  | [] => []
  | a :: t => if p a then t else a :: deleteFirst t p

/-- Stable insertion into a list sorted by ascending `requestTime`
(an element is placed after all entries with an earlier-or-equal stamp). -/
def insertByTime (e : QueueEntry) : List QueueEntry → List QueueEntry
  | [] => [e]
  | x :: xs =>
      if x.requestTime ≤ e.requestTime then x :: insertByTime e xs
      else e :: x :: xs

/-- Stable sort by ascending `requestTime`, modelling
`ChargingQueue.find().sort({requestTime: 1})`. -/
def sortQ : List QueueEntry → List QueueEntry
  | [] => []
  | x :: xs => insertByTime x (sortQ xs)

/-- First spot with the given id that is in `waiting` status: models both
`findOne({spotId, status: '等待中'})` and the pattern
`find({status:'等待中'})` followed by `.find(ws => ws.spotId === ...)`. -/
def findWaiting (spots : List Spot) (i : Nat) : Option Spot :=
  spots.find? (fun sp => decide (sp.spotId = i ∧ sp.status = Status.waiting))

/-- Elapsed seconds between two millisecond stamps
(`(new Date() - new Date(t)) / 1000`). -/
def elapsedSec (now t : Nat) : ℚ := ((now : ℚ) - (t : ℚ)) / 1000

/-- Elapsed minutes between two millisecond stamps
(`(new Date() - new Date(t)) / (1000 * 60)`). -/
def elapsedMin (now t : Nat) : ℚ := ((now : ℚ) - (t : ℚ)) / (1000 * 60)

/-- The cumulative remaining time (in minutes) of the current cable holder:
lines 219–234 of `updateWaitingTimes`, also duplicated verbatim at lines
684–699 of the queued branch of `POST /api/request-charging`.  If the
holder is still moving (`moveStartTime` set, `startTime` unset) the
remaining movement is added; then either the remaining charge (once
started) or the full requested charge is added.  `Option.getD 0` renders
JS `null` coercing to `0` in arithmetic. -/
def initialCum (now : Nat) (cs : Spot) : ℚ :=
  (match cs.moveStartTime, cs.startTime with
   | some m, none => max 0 (CABLE_MOVING_TIME - elapsedSec now m) / 60
   | _, _ => 0) +
  (match cs.startTime with
   | some st => max 0 (cs.chargingTime.getD 0 - elapsedMin now st)
   | none => cs.chargingTime.getD 0)

/-- The queue walk of `updateWaitingTimes` (lines 239–249): for each queue
entry whose target spot is in `waiting` status, store the running
cumulative as its `waitingTime`, then add that spot's `chargingTime` plus
`CABLE_MOVING_TIME / 60` before the next entry.  The source takes the
waiting-spot snapshot before the loop; since the loop only writes
`waitingTime` (never a status), re-querying at each step is equivalent. -/
def walkQueue : List QueueEntry → List Spot → ℚ → List Spot
  | [], spots, _ => spots
  | e :: rest, spots, cum =>
      match findWaiting spots e.spotId with
      | some ws =>
          walkQueue rest
            (updateFirst spots
              (fun sp => decide (sp.spotId = e.spotId ∧ sp.status = Status.waiting))
              (fun sp => { sp with waitingTime := some cum }))
            (cum + ws.chargingTime.getD 0 + CABLE_MOVING_TIME / 60)
      | none => walkQueue rest spots cum

/-- `updateWaitingTimes` (lines 210–255): returns immediately when no spot
has status `'充電中'`; otherwise seeds the cumulative from the cable holder
and walks the queue in ascending `requestTime` order. -/
def updateWaitingTimes (now : Nat) (s : State) : State :=
  match s.spots.find? (fun sp => decide (sp.status = Status.charging)) with
  | none => s
  | some cs => { s with spots := walkQueue (sortQ s.queue) s.spots (initialCum now cs) }

/-- The immediate effect of `processNextChargingRequest` (lines 170–187):
pop the head of the queue sorted by `requestTime`; if its target spot is in
`waiting` status, set it to `'充電中'` and stamp `moveStartTime`.  The
`setTimeout` body scheduled at line 189 is `onCableArrivedQueued` below;
note that the queue entry is *not* deleted here. -/
def processNextChargingRequest (now : Nat) (s : State) : State :=
  match (sortQ s.queue).head? with
  | none => s
  | some e =>
      match findWaiting s.spots e.spotId with
      | none => s
      | some _ =>
          let spots' :=
            updateFirst s.spots
              (fun sp => decide (sp.spotId = e.spotId ∧ sp.status = Status.waiting))
              (fun sp => { sp with status := Status.charging, moveStartTime := some now })
          { s with spots := spots' }

/-- The delayed cable-arrival callback scheduled by the direct-dispatch
branch of `POST /api/request-charging` (lines 652–663): a no-op unless the
spot is still `'充電中'` with no `startTime`; then it stamps `startTime`. -/
def onCableArrivedDirect (i : Nat) (now : Nat) (s : State) : State :=
  match s.spots.find? (fun sp => decide (sp.spotId = i)) with
  | none => s
  | some sp =>
      if sp.status = Status.charging ∧ sp.startTime = none then
        let spots' :=
          updateFirst s.spots (fun x => decide (x.spotId = i))
            (fun x => { x with startTime := some now })
        { s with spots := spots' }
      else s

/-- The delayed cable-arrival callback scheduled by
`processNextChargingRequest` (lines 189–202): under the same guard it
stamps `startTime`, deletes the captured queue entry by `_id`, and reruns
`updateWaitingTimes`. -/
def onCableArrivedQueued (e : QueueEntry) (now : Nat) (s : State) : State :=
  match s.spots.find? (fun sp => decide (sp.spotId = e.spotId)) with
  | none => s
  | some sp =>
      if sp.status = Status.charging ∧ sp.startTime = none then
        let spots' :=
          updateFirst s.spots (fun x => decide (x.spotId = e.spotId))
            (fun x => { x with startTime := some now })
        let queue' := deleteFirst s.queue (fun q => decide (q.id = e.id))
        updateWaitingTimes now { s with spots := spots', queue := queue' }
      else s

/-- The charge-completion `setInterval` body (lines 806–826): for the first
spot with status `'充電中'` and a non-null `startTime`, if its (truthy,
hence non-zero) `chargingTime` has elapsed, set it to `'結束'` and invoke
`processNextChargingRequest`. -/
def chargeCompletionTick (now : Nat) (s : State) : State :=
  match s.spots.find?
      (fun sp => decide (sp.status = Status.charging ∧ sp.startTime ≠ none)) with
  | none => s
  | some cs =>
      match cs.startTime, cs.chargingTime with
      | some st, some ct =>
          if ct ≠ 0 ∧ elapsedMin now st ≥ ct then
            let spots' :=
              updateFirst s.spots
                (fun sp => decide (sp.status = Status.charging ∧ sp.startTime ≠ none))
                (fun sp => { sp with status := Status.finished })
            processNextChargingRequest now { s with spots := spots' }
          else s
      | _, _ => s

/-- JS `ToIntegerOrInfinity` truncation toward zero, as applied by
`Date.prototype.setMinutes` to its argument. -/
def jsTrunc (q : ℚ) : Int := if 0 ≤ q then q.floor else q.ceil

/-- The completion instant computed at lines 272–273:
`finishTime.setMinutes(finishTime.getMinutes() + spot.chargingTime)`.
`getMinutes` is the minute-of-hour (modelled in UTC, epoch-aligned);
`setMinutes` replaces it by the truncated sum, preserving seconds and
milliseconds and rolling surplus minutes into the hour. -/
def finishTimeMs (st : Nat) (ct : ℚ) : Int :=
  let m : Nat := st / 60000 % 60
  (st : Int) - (m : Int) * 60000 + jsTrunc ((m : ℚ) + ct) * 60000

/-- Per-spot body of `checkAndResetFinishedSpots` (lines 261–286): a
`'結束'` spot with no `startTime` is reset defensively; one whose computed
finish instant lies more than five seconds in the past is reset fully.
Neither branch clears `waitingTime`. -/
def resetFinishedSpot (now : Nat) (sp : Spot) : Spot :=
  if sp.status = Status.finished then
    match sp.startTime with
    | none =>
        { sp with status := Status.idle, chargingTime := none,
                  userId := none, moveStartTime := none }
    | some st =>
        if ((now : ℚ) - (finishTimeMs st (sp.chargingTime.getD 0) : ℚ)) / 1000
            > FINISH_LINGER_SECONDS then
          { sp with status := Status.idle, startTime := none, chargingTime := none,
                    userId := none, moveStartTime := none }
        else sp
  else sp

/-- `checkAndResetFinishedSpots` (lines 258–290): each finished spot is
handled independently, so the pass is a map over the registry.  It never
touches the queue and never calls `processNextChargingRequest`. -/
def checkAndResetFinishedSpots (now : Nat) (s : State) : State :=
  { s with spots := s.spots.map (resetFinishedSpot now) }

/-- Outcome of `POST /api/request-charging`. -/
inductive ReqResult where
  | missingParams
  | duplicate
  | notFound
  | occupied
  | dispatched
  | queued (position : Nat) (eta : ℚ)
deriving DecidableEq

/-- `POST /api/request-charging` (lines 599–745).  Parameter validation is
`!spotId || chargingTime === undefined || !userId` (so `spotId = 0` and
`userId = ""` are "missing", but a present non-positive `chargingTime`
passes).  Then: duplicate check on spots owned by the user in status
`'充電中'` or `'等待中'`; target must exist and be `'空置中'`; if no spot
is `'充電中'` the cable is dispatched immediately, else the request is
queued and `updateWaitingTimes` is rerun. -/
def requestCharging (u : String) (i : Nat) (ct? : Option ℚ) (now : Nat) (s : State) :
    ReqResult × State :=
  if i = 0 ∨ ct? = none ∨ u = "" then (ReqResult.missingParams, s) else
  match ct? with
  | none => (ReqResult.missingParams, s)
  | some ct =>
    match s.spots.find?
        (fun sp => decide (sp.userId = some u ∧
          (sp.status = Status.charging ∨ sp.status = Status.waiting))) with
    | some _ => (ReqResult.duplicate, s)
    | none =>
      match s.spots.find? (fun sp => decide (sp.spotId = i)) with
      | none => (ReqResult.notFound, s)
      | some sp =>
        if sp.status ≠ Status.idle then (ReqResult.occupied, s) else
        match s.spots.find? (fun x => decide (x.status = Status.charging)) with
        | none =>
            let spots' :=
              updateFirst s.spots (fun x => decide (x.spotId = i))
                (fun x => { x with status := Status.charging,
                                   moveStartTime := some now,
                                   chargingTime := some ct, userId := some u })
            (ReqResult.dispatched, { s with spots := spots' })
        | some cs =>
            let total :=
              (sortQ s.queue).foldl
                (fun acc e =>
                  match findWaiting s.spots e.spotId with
                  | some ws => acc + ws.chargingTime.getD 0 + CABLE_MOVING_TIME / 60
                  | none => acc)
                (initialCum now cs)
            let entry : QueueEntry :=
              { id := s.nextId, userId := u, spotId := i,
                chargingTime := ct, requestTime := now }
            let spots' :=
              updateFirst s.spots (fun x => decide (x.spotId = i))
                (fun x => { x with status := Status.waiting,
                                   chargingTime := some ct, userId := some u,
                                   waitingTime := some total })
            (ReqResult.queued (s.queue.length + 1) total,
             updateWaitingTimes now
               { spots := spots', queue := s.queue ++ [entry], nextId := s.nextId + 1 })

/-- Outcome of `POST /api/cancel-charging`. -/
inductive CancelResult where
  | missingParams
  | notFound
  | ok (oldStatus : Status)
deriving DecidableEq

/-- Full reset of a spot performed by `POST /api/cancel-charging`
(lines 770–777): every mutable field is cleared, `waitingTime` included. -/
def cancelReset (sp : Spot) : Spot :=
  { sp with status := Status.idle, startTime := none, chargingTime := none,
            waitingTime := none, userId := none, moveStartTime := none }

/-- `POST /api/cancel-charging` (lines 748–800): the spot is located by
`spotId` and `userId` with no status restriction; it is fully reset, the
matching queue entry deleted, and then — depending on the old status —
`processNextChargingRequest` (was `'充電中'`) or `updateWaitingTimes`
(was `'等待中'`) runs; any other old status triggers neither. -/
def cancelCharging (u : String) (i : Nat) (now : Nat) (s : State) :
    CancelResult × State :=
  if i = 0 ∨ u = "" then (CancelResult.missingParams, s) else
  match s.spots.find? (fun sp => decide (sp.spotId = i ∧ sp.userId = some u)) with
  | none => (CancelResult.notFound, s)
  | some sp =>
      let spots' :=
        updateFirst s.spots
          (fun x => decide (x.spotId = i ∧ x.userId = some u)) cancelReset
      let queue' := deleteFirst s.queue (fun e => decide (e.userId = u ∧ e.spotId = i))
      let s1 : State := { s with spots := spots', queue := queue' }
      let s2 :=
        if sp.status = Status.charging then processNextChargingRequest now s1
        else if sp.status = Status.waiting then updateWaitingTimes now s1
        else s1
      (CancelResult.ok sp.status, s2)

/-- A freshly initialized spot (`initParkingSpots`, lines 65–80). -/
def freshSpot (i : Nat) : Spot :=
  { spotId := i, status := Status.idle, startTime := none, chargingTime := none,
    waitingTime := none, userId := none, moveStartTime := none }

/-- The initialized registry: five spots numbered 7–11, all `'空置中'`,
and an empty queue (`initParkingSpots` / `initializeAllSpots`). -/
def initState : State :=
  { spots := [freshSpot 7, freshSpot 8, freshSpot 9, freshSpot 10, freshSpot 11],
    queue := [], nextId := 0 }

/-- The states reachable from the initialized registry under the HTTP
operations, the two delayed cable-arrival callbacks, and the two periodic
ticks, each fired at an arbitrary instant.  Allowing the callbacks to fire
at any time (for any spot or captured entry) over-approximates the real
timer discipline, which only strengthens universally quantified
invariants; note the source never cancels a `setTimeout`, so stale
callbacks genuinely can fire. -/
inductive Reachable : State → Prop where
  | init : Reachable initState
  | request (u : String) (i : Nat) (ct? : Option ℚ) (now : Nat) {s : State} :
      Reachable s → Reachable (requestCharging u i ct? now s).2
  | cancel (u : String) (i : Nat) (now : Nat) {s : State} :
      Reachable s → Reachable (cancelCharging u i now s).2
  | directArrival (i : Nat) (now : Nat) {s : State} :
      Reachable s → Reachable (onCableArrivedDirect i now s)
  | queueArrival (e : QueueEntry) (now : Nat) {s : State} :
      Reachable s → Reachable (onCableArrivedQueued e now s)
  | chargeTick (now : Nat) {s : State} :
      Reachable s → Reachable (chargeCompletionTick now s)
  | finishTick (now : Nat) {s : State} :
      Reachable s → Reachable (checkAndResetFinishedSpots now s)

/-- A state with a queued (waiting) spot but no cable holder, used to
witness the estimator's early return. -/
def noHolderState : State :=
  { spots := [freshSpot 7,
      { freshSpot 8 with status := Status.waiting, chargingTime := some 5,
                         userId := some "u2", waitingTime := some 3 },
      freshSpot 9, freshSpot 10, freshSpot 11],
    queue := [{ id := 0, userId := "u2", spotId := 8, chargingTime := 5, requestTime := 100 }],
    nextId := 1 }

/-- A concrete promotion scenario: spot 8 is queued-waiting and its entry
(`id 0`) is the head of the admission queue. -/
def promoState : State :=
  { spots := [freshSpot 7,
      { freshSpot 8 with status := Status.waiting, chargingTime := some 5,
                         userId := some "u2", waitingTime := some 10 },
      freshSpot 9, freshSpot 10, freshSpot 11],
    queue := [{ id := 0, userId := "u2", spotId := 8, chargingTime := 5, requestTime := 100 }],
    nextId := 1 }

/-- The queue entry of `promoState`. -/
def promoEntry : QueueEntry :=
  { id := 0, userId := "u2", spotId := 8, chargingTime := 5, requestTime := 100 }

/-- The queued-waiting spot of `promoState`. -/
def promoSpot : Spot :=
  { freshSpot 8 with status := Status.waiting, chargingTime := some 5,
                     userId := some "u2", waitingTime := some 10 }

/-- The guard of both delayed cable-arrival callbacks (lines 655 and 192):
the target spot is found and is still `'充電中'` with no `startTime`. -/
def cableGuard (s : State) (i : Nat) : Bool :=
  match s.spots.find? (fun sp => decide (sp.spotId = i)) with
  | some sp => decide (sp.status = Status.charging ∧ sp.startTime = none)
  | none => false

/-- The wait-time schedule described by the spec for the estimator walk:
starting from a cumulative value, each queued duration first yields the
current cumulative as its ETA, then adds itself plus one cable movement
(`CABLE_MOVING_TIME / 60` minutes) for the next entry.  This is the
spec-side description that claim C4 compares against the source walk. -/
def specEtaSchedule (cum : ℚ) : List ℚ → List ℚ
  | [] => []
  | d :: ds => cum :: specEtaSchedule (cum + d + CABLE_MOVING_TIME / 60) ds

/-- The requested duration of each queue entry, read (as the source does)
from its target waiting spot, with the JS `null → 0` coercion. -/
def queueDurations (spots : List Spot) (q : List QueueEntry) : List ℚ :=
  q.map (fun e =>
    match findWaiting spots e.spotId with
    | some ws => ws.chargingTime.getD 0
    | none => 0)

/-- A registry with a started cable holder (spot 7) and two queued spots
(8 then 9), used to exercise the estimator walk. -/
def estState : State :=
  { spots := [
      { freshSpot 7 with status := Status.charging, startTime := some 60000,
                         chargingTime := some 10, userId := some "u1",
                         moveStartTime := some 0 },
      { freshSpot 8 with status := Status.waiting, chargingTime := some 5,
                         userId := some "u2", waitingTime := some 1 },
      { freshSpot 9 with status := Status.waiting, chargingTime := some 20,
                         userId := some "u3", waitingTime := some 2 },
      freshSpot 10, freshSpot 11],
    queue := [{ id := 0, userId := "u2", spotId := 8, chargingTime := 5, requestTime := 40000 },
      { id := 1, userId := "u3", spotId := 9, chargingTime := 20, requestTime := 50000 }],
    nextId := 2 }

/-- A registry in which spot 7 has finished (charge started at 30000 ms for
10 minutes, so completion was at 630000 ms) while spot 8 is queued-waiting
behind it with its entry at the head of the queue. -/
def finState : State :=
  { spots := [
      { freshSpot 7 with status := Status.finished, startTime := some 30000,
                         chargingTime := some 10, userId := some "u1",
                         moveStartTime := some 0 },
      { freshSpot 8 with status := Status.waiting, chargingTime := some 5,
                         userId := some "u2", waitingTime := some 8 },
      freshSpot 9, freshSpot 10, freshSpot 11],
    queue := [{ id := 0, userId := "u2", spotId := 8, chargingTime := 5, requestTime := 100 }],
    nextId := 1 }

/-- A registry whose spot 7 is owned by `"u1"` and `'結束'` (finished),
with a charge that started at 0 ms and ran 10 minutes. -/
def c9state : State :=
  { spots := [
      { freshSpot 7 with status := Status.finished, startTime := some 0,
                         chargingTime := some 10, userId := some "u1" },
      freshSpot 8, freshSpot 9, freshSpot 10, freshSpot 11],
    queue := [], nextId := 0 }

/-- A registry whose spot 7 is in the Moving state (`'充電中'`, cable
dispatched at 0 ms, `startTime` unset), together with its pending queue
entry, used to exercise the cable-arrival callbacks. -/
def movingState : State :=
  { spots := [
      { freshSpot 7 with status := Status.charging, chargingTime := some 5,
                         userId := some "u1", moveStartTime := some 0 },
      freshSpot 8, freshSpot 9, freshSpot 10, freshSpot 11],
    queue := [{ id := 0, userId := "u1", spotId := 7, chargingTime := 5, requestTime := 0 }],
    nextId := 1 }

/-- The queue entry of `movingState`. -/
def movingEntry : QueueEntry :=
  { id := 0, userId := "u1", spotId := 7, chargingTime := 5, requestTime := 0 }

/-- The entry queued by `"u3"` for spot 7 in the stale-timer scenario of
claim C5. -/
def c5entry : QueueEntry :=
  { id := 0, userId := "u3", spotId := 7, chargingTime := 5, requestTime := 3000 }

/-- The stale-timer scenario: `"u1"` dispatches to spot 7 and cancels, so
the 30-second timer of that dispatch keeps running; `"u2"` dispatches to
spot 9; `"u3"` queues for spot 7; cancelling `"u2"` promotes `"u3"` — and
then the stale timer stamps `startTime` on spot 7, so the promotion's own
callback no-ops and never deletes the entry of `"u3"`.  After the charge
completes and the spot is reset, the orphaned entry remains. -/
def c5final : State :=
  checkAndResetFinishedSpots 340000
    (chargeCompletionTick 330000
      (onCableArrivedQueued c5entry 35000
        (onCableArrivedDirect 9 32000
          (onCableArrivedDirect 7 30000
            ((cancelCharging "u2" 9 5000
              ((requestCharging "u3" 7 (some 5) 3000
                ((requestCharging "u2" 9 (some 5) 2000
                  ((cancelCharging "u1" 7 1000
                    ((requestCharging "u1" 7 (some 5) 0 initState).2)).2)).2)).2)).2)))))

/-- The entry queued by `"u2"` for spot 8 in the round-trip scenario of
claim C7. -/
def c7entry : QueueEntry :=
  { id := 0, userId := "u2", spotId := 8, chargingTime := 5, requestTime := 10000 }

/-- A reachable state in which spot 8 is idle but retains a stale
`waitingTime` (31/3 minutes): spot 8 was queued behind spot 7, promoted,
charged, finished, and reset by the finish tick — which clears every field
except `waitingTime`. -/
def c7pre : State :=
  checkAndResetFinishedSpots 970000
    (chargeCompletionTick 960000
      (onCableArrivedQueued c7entry 660000
        (chargeCompletionTick 630000
          (onCableArrivedDirect 7 30000
            ((requestCharging "u2" 8 (some 5) 10000
              ((requestCharging "u1" 7 (some 10) 0 initState).2)).2)))))

/-- The cable holder of `estState` (spot 7, charge started at 60000 ms). -/
def estCs : Spot :=
  { freshSpot 7 with status := Status.charging, startTime := some 60000,
                     chargingTime := some 10, userId := some "u1",
                     moveStartTime := some 0 }

/-! ## Generic list lemmas for the update/delete/find patterns -/

theorem updateFirst_nil (p : α → Bool) (f : α → α) : updateFirst ([] : List α) p f = [] := rfl

theorem updateFirst_cons (a : α) (t : List α) (p : α → Bool) (f : α → α) :
    updateFirst (a :: t) p f = if p a then f a :: t else a :: updateFirst t p f := rfl

theorem countP_updateFirst_le (l : List α) (p q : α → Bool) (f : α → α) :
    (updateFirst l p f).countP q ≤ l.countP q + 1 := by
  induction l with
  | nil => simp [updateFirst]
  | cons a t ih =>
      rw [updateFirst_cons]
      by_cases h : p a
      · simp only [h, if_pos, List.countP_cons]
        by_cases h1 : q (f a) <;> by_cases h2 : q a <;> simp [h1, h2] <;> omega
      · simp only [h, if_neg, List.countP_cons, Bool.false_eq_true, not_false_iff]
        by_cases h2 : q a <;> simp [h2] <;> omega

theorem countP_updateFirst_of_preserve (l : List α) (p q : α → Bool) (f : α → α)
    (hf : ∀ a, q (f a) = q a) :
    (updateFirst l p f).countP q = l.countP q := by
  induction l with
  | nil => simp [updateFirst]
  | cons a t ih =>
      rw [updateFirst_cons]
      by_cases h : p a
      · simp [h, List.countP_cons, hf a]
      · simp [h, List.countP_cons, ih]

theorem countP_updateFirst_le_of_false (l : List α) (p q : α → Bool) (f : α → α)
    (hf : ∀ a, q (f a) = false) :
    (updateFirst l p f).countP q ≤ l.countP q := by
  induction l with
  | nil => simp [updateFirst]
  | cons a t ih =>
      rw [updateFirst_cons]
      by_cases h : p a
      · simp only [h, if_pos, List.countP_cons, hf a]
        by_cases h2 : q a <;> simp [h2] <;> omega
      · simp only [h, if_neg, List.countP_cons, Bool.false_eq_true, not_false_iff]
        by_cases h2 : q a <;> simp [h2] <;> omega

theorem countP_updateFirst_succ (l : List α) (p q : α → Bool) (f : α → α) (a : α)
    (hfind : l.find? p = some a) (hqa : q a = true) (hqf : q (f a) = false) :
    (updateFirst l p f).countP q + 1 = l.countP q := by
  induction l with
  | nil => simp at hfind
  | cons b t ih =>
      by_cases h : p b
      · rw [List.find?_cons_of_pos _ h] at hfind
        injection hfind with hba
        subst hba
        rw [updateFirst_cons]
        simp [h, List.countP_cons, hqa, hqf]
      · rw [List.find?_cons_of_neg _ h] at hfind
        rw [updateFirst_cons]
        simp only [h, if_neg, Bool.false_eq_true, not_false_iff, List.countP_cons]
        have := ih hfind
        by_cases h2 : q b <;> simp [h2] <;> omega

theorem countP_eq_zero_of_find?_eq_none (l : List α) (q : α → Bool)
    (h : l.find? q = none) : l.countP q = 0 := by
  rw [List.countP_eq_zero]
  intro a ha
  exact List.find?_eq_none.mp h a ha

theorem find?_updateFirst_of_false (l : List α) (p q : α → Bool) (f : α → α)
    (h : ∀ a, p a = true → q a = false ∧ q (f a) = false) :
    (updateFirst l p f).find? q = l.find? q := by
  induction l with
  | nil => simp [updateFirst]
  | cons a t ih =>
      rw [updateFirst_cons]
      by_cases hp : p a
      · obtain ⟨h1, h2⟩ := h a hp
        simp [hp, List.find?_cons, h1, h2]
      · simp only [hp, if_neg, Bool.false_eq_true, not_false_iff]
        by_cases hq : q a
        · simp [List.find?_cons, hq]
        · simp [List.find?_cons, hq, ih]

theorem find?_updateFirst_self (l : List α) (p : α → Bool) (f : α → α) (a : α)
    (hfind : l.find? p = some a) (hfa : p (f a) = true) :
    (updateFirst l p f).find? p = some (f a) := by
  induction l with
  | nil => simp at hfind
  | cons b t ih =>
      by_cases h : p b
      · rw [List.find?_cons_of_pos _ h] at hfind
        injection hfind with hba
        subst hba
        rw [updateFirst_cons]
        simp [h, List.find?_cons, hfa]
      · rw [List.find?_cons_of_neg _ h] at hfind
        rw [updateFirst_cons]
        simp [h, List.find?_cons, ih hfind]

theorem mem_updateFirst_self (l : List α) (p : α → Bool) (f : α → α) (a : α)
    (hfind : l.find? p = some a) : f a ∈ updateFirst l p f := by
  induction l with
  | nil => simp at hfind
  | cons b t ih =>
      by_cases h : p b
      · rw [List.find?_cons_of_pos _ h] at hfind
        injection hfind with hba
        subst hba
        rw [updateFirst_cons]
        simp [h]
      · rw [List.find?_cons_of_neg _ h] at hfind
        rw [updateFirst_cons]
        simp [h, ih hfind]

theorem mem_updateFirst_of_false (l : List α) (p : α → Bool) (f : α → α) (x : α)
    (hx : p x = false) (hmem : x ∈ l) : x ∈ updateFirst l p f := by
  induction l with
  | nil => simp at hmem
  | cons b t ih =>
      rw [updateFirst_cons]
      rcases List.mem_cons.mp hmem with h | h
      · subst h
        simp [hx]
      · by_cases hb : p b
        · simp [hb, h]
        · simp [hb, List.mem_cons]
          exact Or.inr (ih h)

theorem deleteFirst_eq_of_forall_false (l : List α) (p : α → Bool)
    (h : ∀ a ∈ l, p a = false) : deleteFirst l p = l := by
  induction l with
  | nil => rfl
  | cons a t ih =>
      have ha := h a (List.mem_cons_self a t)
      simp only [deleteFirst, ha, Bool.false_eq_true, if_neg, not_false_iff]
      rw [ih (fun x hx => h x (List.mem_cons_of_mem a hx))]

theorem length_updateFirst (l : List α) (p : α → Bool) (f : α → α) :
    (updateFirst l p f).length = l.length := by
  induction l with
  | nil => rfl
  | cons a t ih =>
      rw [updateFirst_cons]
      by_cases h : p a <;> simp [h, ih]

/-! ## Lemmas about `sortQ` -/

theorem mem_insertByTime (e x : QueueEntry) (l : List QueueEntry) :
    x ∈ insertByTime e l ↔ x = e ∨ x ∈ l := by
  induction l with
  | nil => simp [insertByTime]
  | cons a t ih =>
      simp only [insertByTime]
      by_cases h : a.requestTime ≤ e.requestTime
      · simp only [h, if_pos, List.mem_cons, ih]
        tauto
      · simp only [h, if_neg, not_false_iff, List.mem_cons]

theorem mem_sortQ (x : QueueEntry) (l : List QueueEntry) :
    x ∈ sortQ l ↔ x ∈ l := by
  induction l with
  | nil => simp [sortQ]
  | cons a t ih =>
      simp only [sortQ, mem_insertByTime, ih, List.mem_cons]

/-! ## The single-cable invariant (claim C1) -/

/-- Number of spots whose status is `'充電中'` (which covers both the
spec-level `Moving` and `Charging` states). -/
def chargingCount (spots : List Spot) : Nat :=
  spots.countP (fun sp => decide (sp.status = Status.charging))

theorem walkQueue_countP_charging (q : List QueueEntry) (spots : List Spot) (cum : ℚ) :
    (walkQueue q spots cum).countP (fun sp => decide (sp.status = Status.charging))
      = spots.countP (fun sp => decide (sp.status = Status.charging)) := by
  induction q generalizing spots cum with
  | nil => rfl
  | cons e rest ih =>
      simp only [walkQueue]
      cases hf : findWaiting spots e.spotId with
      | none => exact ih spots cum
      | some ws =>
          rw [ih]
          exact countP_updateFirst_of_preserve _ _ _ _ (fun a => rfl)

theorem updateWaitingTimes_spots_count (now : Nat) (s : State) :
    (updateWaitingTimes now s).spots.countP (fun sp => decide (sp.status = Status.charging))
      = s.spots.countP (fun sp => decide (sp.status = Status.charging)) := by
  unfold updateWaitingTimes
  cases hf : s.spots.find? (fun sp => decide (sp.status = Status.charging)) with
  | none => rfl
  | some cs => exact walkQueue_countP_charging _ _ _

theorem updateWaitingTimes_queue (now : Nat) (s : State) :
    (updateWaitingTimes now s).queue = s.queue := by
  unfold updateWaitingTimes
  cases hf : s.spots.find? (fun sp => decide (sp.status = Status.charging)) <;> rfl

theorem processNext_queue (now : Nat) (s : State) :
    (processNextChargingRequest now s).queue = s.queue := by
  unfold processNextChargingRequest
  split
  · rfl
  · split <;> rfl

theorem processNext_count_le (now : Nat) (s : State) :
    (processNextChargingRequest now s).spots.countP (fun sp => decide (sp.status = Status.charging))
      ≤ s.spots.countP (fun sp => decide (sp.status = Status.charging)) + 1 := by
  unfold processNextChargingRequest
  split
  · exact Nat.le_add_right _ 1
  · split
    · exact Nat.le_add_right _ 1
    · exact countP_updateFirst_le _ _ _ _

theorem resetFinishedSpot_charging (now : Nat) (sp : Spot) :
    (fun x => decide (x.status = Status.charging)) (resetFinishedSpot now sp) = true →
    (fun x => decide (x.status = Status.charging)) sp = true := by
  unfold resetFinishedSpot
  by_cases h : sp.status = Status.finished
  · simp only [h, if_pos]
    cases sp.startTime with
    | none => simp
    | some st =>
        by_cases h2 : ((now : ℚ) - (finishTimeMs st (sp.chargingTime.getD 0) : ℚ)) / 1000
            > FINISH_LINGER_SECONDS
        · simp [h2]
        · simp [h2, h]
  · simp [h]

theorem checkAndReset_count_le (now : Nat) (s : State) :
    chargingCount (checkAndResetFinishedSpots now s).spots ≤ chargingCount s.spots := by
  unfold checkAndResetFinishedSpots chargingCount
  rw [List.countP_map]
  exact List.countP_mono_left (fun a _ => resetFinishedSpot_charging now a)

theorem requestCharging_count_le (u : String) (i : Nat) (ct? : Option ℚ) (now : Nat)
    (s : State) (h : chargingCount s.spots ≤ 1) :
    chargingCount (requestCharging u i ct? now s).2.spots ≤ 1 := by
  unfold requestCharging
  split
  · exact h
  split
  · exact h
  split
  · exact h
  split
  · exact h
  split
  · exact h
  split
  · rename_i hfree
    have h0 : List.countP (fun sp => decide (sp.status = Status.charging)) s.spots = 0 :=
      countP_eq_zero_of_find?_eq_none _ _ hfree
    simp only [chargingCount]
    refine le_trans (countP_updateFirst_le _ _ _ _) ?_
    omega
  · simp only [chargingCount] at h ⊢
    rw [updateWaitingTimes_spots_count]
    refine le_trans ?_ h
    exact countP_updateFirst_le_of_false _ _ _ _ (fun a => rfl)

theorem cancelCharging_count_le (u : String) (i : Nat) (now : Nat)
    (s : State) (h : chargingCount s.spots ≤ 1) :
    chargingCount (cancelCharging u i now s).2.spots ≤ 1 := by
  unfold cancelCharging
  split
  · exact h
  split
  · exact h
  rename_i sp hfind
  simp only [chargingCount] at h ⊢
  by_cases hc : sp.status = Status.charging
  · have hq : (fun x => decide (x.status = Status.charging)) sp = true := by
      simp [hc]
    have hqf : (fun x => decide (x.status = Status.charging)) (cancelReset sp) = false := by
      simp [cancelReset]
    have hsucc := countP_updateFirst_succ s.spots
      (fun x => decide (x.spotId = i ∧ x.userId = some u))
      (fun x => decide (x.status = Status.charging))
      cancelReset sp hfind hq hqf
    rw [if_pos hc]
    refine le_trans (processNext_count_le now _) ?_
    dsimp only
    omega
  · have hle := countP_updateFirst_le_of_false s.spots
      (fun x => decide (x.spotId = i ∧ x.userId = some u))
      (fun x => decide (x.status = Status.charging))
      cancelReset (fun a => by simp [cancelReset])
    rw [if_neg hc]
    by_cases hw : sp.status = Status.waiting
    · rw [if_pos hw, updateWaitingTimes_spots_count]
      exact le_trans hle h
    · rw [if_neg hw]
      exact le_trans hle h

theorem directArrival_count_le (i : Nat) (now : Nat) (s : State)
    (h : chargingCount s.spots ≤ 1) :
    chargingCount (onCableArrivedDirect i now s).spots ≤ 1 := by
  unfold onCableArrivedDirect
  split
  · exact h
  · split
    · rename_i sp hfind hguard
      have := countP_updateFirst_of_preserve s.spots
        (fun x => decide (x.spotId = i))
        (fun sp => decide (sp.status = Status.charging))
        (fun x => { x with startTime := some now }) (fun a => rfl)
      simpa [chargingCount, this] using h
    · exact h

theorem queueArrival_count_le (e : QueueEntry) (now : Nat) (s : State)
    (h : chargingCount s.spots ≤ 1) :
    chargingCount (onCableArrivedQueued e now s).spots ≤ 1 := by
  unfold onCableArrivedQueued
  split
  · exact h
  · split
    · rename_i sp hfind hguard
      simp only [chargingCount] at h ⊢
      rw [updateWaitingTimes_spots_count]
      have := countP_updateFirst_of_preserve s.spots
        (fun x => decide (x.spotId = e.spotId))
        (fun sp => decide (sp.status = Status.charging))
        (fun x => { x with startTime := some now }) (fun a => rfl)
      simpa [this] using h
    · exact h

theorem chargeTick_count_le (now : Nat) (s : State)
    (h : chargingCount s.spots ≤ 1) :
    chargingCount (chargeCompletionTick now s).spots ≤ 1 := by
  unfold chargeCompletionTick
  split
  · exact h
  rename_i cs hfind
  split
  · split
    · have hq : (fun x => decide (x.status = Status.charging)) cs = true := by
        have := List.find?_some hfind
        simp only [decide_eq_true_eq] at this
        simp [this.1]
      have hqf : (fun x => decide (x.status = Status.charging))
          ({ cs with status := Status.finished }) = false := by simp
      have hsucc := countP_updateFirst_succ s.spots
        (fun sp => decide (sp.status = Status.charging ∧ sp.startTime ≠ none))
        (fun x => decide (x.status = Status.charging))
        (fun sp => { sp with status := Status.finished }) cs hfind hq hqf
      simp only [chargingCount] at h ⊢
      refine le_trans (processNext_count_le now _) ?_
      dsimp only
      omega
    · exact h
  · exact h

theorem charging_invariant {s : State} (h : Reachable s) : chargingCount s.spots ≤ 1 := by
  induction h with
  | init => decide
  | request u i ct? now _ ih => exact requestCharging_count_le u i ct? now _ ih
  | cancel u i now _ ih => exact cancelCharging_count_le u i now _ ih
  | directArrival i now _ ih => exact directArrival_count_le i now _ ih
  | queueArrival e now _ ih => exact queueArrival_count_le e now _ ih
  | chargeTick now _ ih => exact chargeTick_count_le now _ ih
  | finishTick now _ ih => exact le_trans (checkAndReset_count_le now _) ih

/-- C1: For every reachable scheduler state, at most one spot is in the
spec-level Moving state (status `'充電中'` with `startTime` unset) and at
most one spot is in the spec-level Charging state (status `'充電中'` with
`startTime` set): there is at most one `'充電中'` spot altogether. -/
theorem C1_at_most_one_moving_and_one_charging (s : State) (h : Reachable s) :
    s.spots.countP (fun sp => decide (sp.status = Status.charging ∧ sp.startTime = none)) ≤ 1 ∧
    s.spots.countP (fun sp => decide (sp.status = Status.charging ∧ sp.startTime ≠ none)) ≤ 1 := by
  have hc := charging_invariant h
  simp only [chargingCount] at hc
  constructor
  · refine le_trans (List.countP_mono_left ?_) hc
    intro a _ ha
    simp only [decide_eq_true_eq] at ha ⊢
    exact ha.1
  · refine le_trans (List.countP_mono_left ?_) hc
    intro a _ ha
    simp only [decide_eq_true_eq] at ha ⊢
    exact ha.1

theorem C1_witness :
    Reachable initState ∧
    initState.spots.countP
      (fun sp => decide (sp.status = Status.charging ∧ sp.startTime = none)) ≤ 1 ∧
    initState.spots.countP
      (fun sp => decide (sp.status = Status.charging ∧ sp.startTime ≠ none)) ≤ 1 :=
  ⟨Reachable.init,
   (C1_at_most_one_moving_and_one_charging initState Reachable.init).1,
   (C1_at_most_one_moving_and_one_charging initState Reachable.init).2⟩

/-- C10: when no spot has status `'充電中'` (so nothing is in the Moving or
Charging state), `updateWaitingTimes` returns the state untouched: every
queued spot's `waitingTime` and every other field stays exactly as it was. -/
theorem C10_recompute_noop_without_holder (s : State) (now : Nat)
    (h : ∀ sp ∈ s.spots, sp.status ≠ Status.charging) :
    updateWaitingTimes now s = s := by
  unfold updateWaitingTimes
  have hn : s.spots.find? (fun sp => decide (sp.status = Status.charging)) = none := by
    rw [List.find?_eq_none]
    intro x hx
    simp only [decide_eq_true_eq]
    exact h x hx
  rw [hn]

theorem C10_witness :
    (∀ sp ∈ noHolderState.spots, sp.status ≠ Status.charging) ∧
    updateWaitingTimes 99999 noHolderState = noHolderState :=
  ⟨by decide, C10_recompute_noop_without_holder noHolderState 99999 (by decide)⟩

/-! ## Claim C2: when is the promoted queue entry removed? -/

theorem processNext_promotes (now : Nat) (s : State) (e : QueueEntry) (ws : Spot)
    (hhead : (sortQ s.queue).head? = some e)
    (hws : findWaiting s.spots e.spotId = some ws) :
    processNextChargingRequest now s = { s with spots := updateFirst s.spots (fun sp => decide (sp.spotId = e.spotId ∧ sp.status = Status.waiting)) (fun sp => { sp with status := Status.charging, moveStartTime := some now }) } := by
  unfold processNextChargingRequest
  rw [hhead]
  dsimp only
  rw [hws]

theorem queueArrival_fires (e : QueueEntry) (now : Nat) (s : State) (sp : Spot)
    (hfind : s.spots.find? (fun x => decide (x.spotId = e.spotId)) = some sp)
    (hg : sp.status = Status.charging ∧ sp.startTime = none) :
    onCableArrivedQueued e now s = updateWaitingTimes now { s with spots := updateFirst s.spots (fun x => decide (x.spotId = e.spotId)) (fun x => { x with startTime := some now }), queue := deleteFirst s.queue (fun q => decide (q.id = e.id)) } := by
  unfold onCableArrivedQueued
  rw [hfind]
  dsimp only
  rw [if_pos hg]

theorem find?_spotId_updateFirst_waiting (l : List Spot) (j : Nat) (ws : Spot)
    (f : Spot → Spot)
    (hnd : (l.map (fun sp => sp.spotId)).Nodup)
    (hws : l.find? (fun sp => decide (sp.spotId = j ∧ sp.status = Status.waiting)) = some ws)
    (hf : ∀ sp, (f sp).spotId = sp.spotId) :
    (updateFirst l (fun sp => decide (sp.spotId = j ∧ sp.status = Status.waiting)) f).find?
      (fun sp => decide (sp.spotId = j)) = some (f ws) := by
  induction l with
  | nil => simp at hws
  | cons a t ih =>
      simp only [List.map_cons, List.nodup_cons] at hnd
      by_cases hp : a.spotId = j ∧ a.status = Status.waiting
      · have hb : decide (a.spotId = j ∧ a.status = Status.waiting) = true := by
          simp [hp.1, hp.2]
        simp only [List.find?_cons, hb] at hws
        injection hws with hwa
        subst hwa
        have hfj : decide ((f a).spotId = j) = true := by
          simp [hf a, hp.1]
        simp only [updateFirst_cons, hb, if_pos, List.find?_cons, hfj]
      · have hb : decide (a.spotId = j ∧ a.status = Status.waiting) = false := by
          simpa using hp
        simp only [List.find?_cons, hb] at hws
        have hws_mem : ws ∈ t := List.mem_of_find?_eq_some hws
        have hwsj : ws.spotId = j := by
          have := List.find?_some hws
          simp only [decide_eq_true_eq] at this
          exact this.1
        have haj : decide (a.spotId = j) = false := by
          simp only [decide_eq_false_iff_not]
          intro hcontra
          apply hnd.1
          rw [hcontra, ← hwsj]
          exact List.mem_map_of_mem (fun sp => sp.spotId) hws_mem
        simp only [updateFirst_cons, hb, Bool.false_eq_true, if_neg, not_false_iff,
          List.find?_cons, haj]
        exact ih hnd.2 hws

theorem mem_of_mem_deleteFirst (l : List α) (p : α → Bool) (x : α)
    (h : x ∈ deleteFirst l p) : x ∈ l := by
  induction l with
  | nil => simpa [deleteFirst] using h
  | cons a t ih =>
      by_cases ha : p a = true
      · simp only [deleteFirst, ha, if_pos] at h
        exact List.mem_cons_of_mem a h
      · simp only [deleteFirst, ha, Bool.false_eq_true, if_neg, not_false_iff,
          List.mem_cons] at h
        rcases h with h | h
        · exact h ▸ List.mem_cons_self a t
        · exact List.mem_cons_of_mem a (ih h)

theorem not_mem_deleteFirst_id (l : List QueueEntry) (e : QueueEntry)
    (hnd : (l.map (fun q => q.id)).Nodup) (he : e ∈ l) :
    e ∉ deleteFirst l (fun q => decide (q.id = e.id)) := by
  induction l with
  | nil => simp at he
  | cons a t ih =>
      simp only [List.map_cons, List.nodup_cons] at hnd
      by_cases ha : a.id = e.id
      · have hb : decide (a.id = e.id) = true := by simp [ha]
        simp only [deleteFirst, hb, if_pos]
        intro hmem
        apply hnd.1
        rw [ha]
        exact List.mem_map_of_mem (fun q => q.id) hmem
      · have hb : decide (a.id = e.id) = false := by simp [ha]
        simp only [deleteFirst, hb, Bool.false_eq_true, if_neg, not_false_iff]
        have het : e ∈ t := by
          rcases List.mem_cons.mp he with h3 | h3
          · exact absurd (h3 ▸ rfl) ha
          · exact h3
        intro hmem
        rcases List.mem_cons.mp hmem with h2 | h2
        · exact ha (h2 ▸ rfl)
        · exact ih hnd.2 het h2

/-- C2 (amended): when `processNextChargingRequest` dispatches the cable to
the head of the admission queue — transitioning the target spot into the
Moving state (status `'充電中'`, `moveStartTime := now`, `startTime` still
unset) — the popped entry is *not* removed from the queue at the moment of
dispatch: it is still queued afterwards, and is removed only later, by the
cable-arrival callback, at the moment charging actually starts. -/
theorem C2_entry_removed_at_charge_start_not_dispatch
    (s : State) (e : QueueEntry) (ws : Spot) (now later : Nat)
    (hhead : (sortQ s.queue).head? = some e)
    (hws : findWaiting s.spots e.spotId = some ws)
    (hstart : ws.startTime = none)
    (hndS : (s.spots.map (fun sp => sp.spotId)).Nodup)
    (hndQ : (s.queue.map (fun q => q.id)).Nodup) :
    (processNextChargingRequest now s).queue = s.queue ∧
    e ∈ (processNextChargingRequest now s).queue ∧
    (∃ sp ∈ (processNextChargingRequest now s).spots,
        sp.spotId = e.spotId ∧ sp.status = Status.charging ∧
        sp.moveStartTime = some now ∧ sp.startTime = none) ∧
    (onCableArrivedQueued e later (processNextChargingRequest now s)).queue
        = deleteFirst s.queue (fun q => decide (q.id = e.id)) ∧
    e ∉ (onCableArrivedQueued e later (processNextChargingRequest now s)).queue := by
  have hmemq : e ∈ s.queue := by
    rw [← mem_sortQ]
    exact List.mem_of_mem_head? (by rw [hhead]; exact Option.mem_def.mpr rfl)
  have hwsId : ws.spotId = e.spotId := by
    have := List.find?_some hws
    simp only [decide_eq_true_eq] at this
    exact this.1
  rw [processNext_promotes now s e ws hhead hws]
  have hfindU := find?_spotId_updateFirst_waiting s.spots e.spotId ws
    (fun sp => { sp with status := Status.charging, moveStartTime := some now })
    hndS hws (fun sp => rfl)
  have harrive := queueArrival_fires e later
    { s with spots := updateFirst s.spots (fun sp => decide (sp.spotId = e.spotId ∧ sp.status = Status.waiting)) (fun sp => { sp with status := Status.charging, moveStartTime := some now }) }
    ({ ws with status := Status.charging, moveStartTime := some now })
    hfindU ⟨rfl, hstart⟩
  rw [harrive]
  refine ⟨rfl, hmemq, ?_, ?_, ?_⟩
  · refine ⟨{ ws with status := Status.charging, moveStartTime := some now },
      mem_updateFirst_self s.spots _ _ ws hws, hwsId, rfl, rfl, hstart⟩
  · rw [updateWaitingTimes_queue]
  · rw [updateWaitingTimes_queue]
    exact not_mem_deleteFirst_id s.queue e hndQ hmemq

/-- C2 (counterexample to the claim as stated): dispatching the cable to
the queue head of `promoState` promotes spot 8 into Moving and stamps
`moveStartTime`, yet the popped entry is still in the admission queue
immediately after the dispatch — it is not removed at that moment. -/
theorem C2_counterexample :
    (∃ sp ∈ (processNextChargingRequest 1000 promoState).spots,
        sp.spotId = 8 ∧ sp.status = Status.charging ∧
        sp.moveStartTime = some 1000 ∧ sp.startTime = none) ∧
    (processNextChargingRequest 1000 promoState).queue = [promoEntry] := by
  decide

theorem C2_witness :
    (sortQ promoState.queue).head? = some promoEntry ∧
    (processNextChargingRequest 1000 promoState).queue = promoState.queue ∧
    promoEntry ∉ (onCableArrivedQueued promoEntry 31000
        (processNextChargingRequest 1000 promoState)).queue := by
  have h := C2_entry_removed_at_charge_start_not_dispatch promoState promoEntry promoSpot
    1000 31000 (by decide) (by decide) (by decide) (by decide) (by decide)
  exact ⟨by decide, h.1, h.2.2.2.2⟩

/-! ## Claim C8: the cable-arrival callbacks are guarded no-ops -/

theorem mem_walkQueue_of_not_waiting (q : List QueueEntry) (spots : List Spot) (cum : ℚ)
    (sp : Spot) (hsp : sp ∈ spots) (hns : sp.status ≠ Status.waiting) :
    sp ∈ walkQueue q spots cum := by
  induction q generalizing spots cum with
  | nil => exact hsp
  | cons e rest ih =>
      simp only [walkQueue]
      cases hf : findWaiting spots e.spotId with
      | none => exact ih spots cum hsp
      | some ws =>
          exact ih _ _ (mem_updateFirst_of_false _ _ _ sp (by simp [hns]) hsp)

theorem mem_updateWaitingTimes_of_not_waiting (now : Nat) (s : State) (sp : Spot)
    (hsp : sp ∈ s.spots) (hns : sp.status ≠ Status.waiting) :
    sp ∈ (updateWaitingTimes now s).spots := by
  unfold updateWaitingTimes
  cases hf : s.spots.find? (fun x => decide (x.status = Status.charging)) with
  | none => exact hsp
  | some cs => exact mem_walkQueue_of_not_waiting _ _ _ sp hsp hns

/-- C8: each delayed cable-arrival callback changes no state at all unless,
at the moment it fires, the target spot is still `'充電中'` with no
`startTime` (spec-level Moving); in that case, and only that case, it
stamps `startTime` (the Moving → Charging transition), so a cancel that
raced the timer is never clobbered. -/
theorem C8_cable_arrival_guarded (s : State) (i : Nat) (e : QueueEntry) (now now2 : Nat)
    (he : e.spotId = i) :
    (cableGuard s i = false →
      onCableArrivedDirect i now s = s ∧ onCableArrivedQueued e now2 s = s) ∧
    (cableGuard s i = true →
      (∃ sp ∈ (onCableArrivedDirect i now s).spots,
          sp.spotId = i ∧ sp.status = Status.charging ∧ sp.startTime = some now) ∧
      (∃ sp ∈ (onCableArrivedQueued e now2 s).spots,
          sp.spotId = i ∧ sp.status = Status.charging ∧ sp.startTime = some now2)) := by
  subst he
  constructor
  · intro hg
    unfold cableGuard at hg
    unfold onCableArrivedDirect onCableArrivedQueued
    cases hfind : s.spots.find? (fun sp => decide (sp.spotId = e.spotId)) with
    | none => exact ⟨rfl, rfl⟩
    | some sp =>
        rw [hfind] at hg
        dsimp only at hg ⊢
        have hng : ¬ (sp.status = Status.charging ∧ sp.startTime = none) := by
          simpa using hg
        rw [if_neg hng, if_neg hng]
        exact ⟨rfl, rfl⟩
  · intro hg
    unfold cableGuard at hg
    cases hfind : s.spots.find? (fun sp => decide (sp.spotId = e.spotId)) with
    | none =>
        rw [hfind] at hg
        simp at hg
    | some sp =>
        rw [hfind] at hg
        dsimp only at hg
        have hok : sp.status = Status.charging ∧ sp.startTime = none := by
          simpa using hg
        have hspId : sp.spotId = e.spotId := by
          have := List.find?_some hfind
          simpa using this
        constructor
        · unfold onCableArrivedDirect
          rw [hfind]
          dsimp only
          rw [if_pos hok]
          refine ⟨{ sp with startTime := some now }, ?_, hspId, hok.1, rfl⟩
          exact mem_updateFirst_self s.spots _ _ sp hfind
        · rw [queueArrival_fires e now2 s sp hfind hok]
          refine ⟨{ sp with startTime := some now2 }, ?_, hspId, hok.1, rfl⟩
          refine mem_updateWaitingTimes_of_not_waiting now2 _ _ ?_ ?_
          · exact mem_updateFirst_self s.spots _ _ sp hfind
          · simp [hok.1]

theorem C8_witness :
    cableGuard movingState 7 = true ∧
    (∃ sp ∈ (onCableArrivedDirect 7 30000 movingState).spots,
        sp.spotId = 7 ∧ sp.status = Status.charging ∧ sp.startTime = some 30000) ∧
    (∃ sp ∈ (onCableArrivedQueued movingEntry 30000 movingState).spots,
        sp.spotId = 7 ∧ sp.status = Status.charging ∧ sp.startTime = some 30000) :=
  ⟨by decide,
   ((C8_cable_arrival_guarded movingState 7 movingEntry 30000 30000 rfl).2 (by decide)).1,
   ((C8_cable_arrival_guarded movingState 7 movingEntry 30000 30000 rfl).2 (by decide)).2⟩

/-! ## Claim C9: cancelling a Finished spot -/

/-- C9: `POST /api/cancel-charging` also succeeds when the matching spot is
`'結束'` (Finished): the spot is fully reset to Idle and the request's
queue entry (if any) deleted, and — because the old status is neither
`'充電中'` nor `'等待中'` — neither `processNextChargingRequest` nor
`updateWaitingTimes` runs: the resulting state is exactly the reset +
delete and nothing else. -/
theorem C9_cancel_finished_succeeds (s : State) (u : String) (i : Nat) (now : Nat) (sp : Spot)
    (hi : i ≠ 0) (hu : u ≠ "")
    (hfind : s.spots.find? (fun x => decide (x.spotId = i ∧ x.userId = some u)) = some sp)
    (hfin : sp.status = Status.finished) :
    (cancelCharging u i now s).1 = CancelResult.ok Status.finished ∧
    (cancelCharging u i now s).2 = { s with spots := updateFirst s.spots (fun x => decide (x.spotId = i ∧ x.userId = some u)) cancelReset, queue := deleteFirst s.queue (fun e => decide (e.userId = u ∧ e.spotId = i)) } ∧
    cancelReset sp ∈ (cancelCharging u i now s).2.spots ∧
    (cancelReset sp).status = Status.idle := by
  have hcond : ¬ (i = 0 ∨ u = "") := by simp [hi, hu]
  unfold cancelCharging
  rw [if_neg hcond]
  dsimp only
  rw [hfind]
  dsimp only
  rw [if_neg (by simp [hfin]), if_neg (by simp [hfin])]
  refine ⟨by rw [hfin], rfl, ?_, rfl⟩
  exact mem_updateFirst_self s.spots _ cancelReset sp hfind

theorem C9_witness :
    (cancelCharging "u1" 7 700000 c9state).1 = CancelResult.ok Status.finished ∧
    cancelReset ({ freshSpot 7 with status := Status.finished, startTime := some 0, chargingTime := some 10, userId := some "u1" }) ∈ (cancelCharging "u1" 7 700000 c9state).2.spots :=
  ⟨(C9_cancel_finished_succeeds c9state "u1" 7 700000
      ({ freshSpot 7 with status := Status.finished, startTime := some 0, chargingTime := some 10, userId := some "u1" })
      (by decide) (by decide) (by decide) (by decide)).1,
   (C9_cancel_finished_succeeds c9state "u1" 7 700000
      ({ freshSpot 7 with status := Status.finished, startTime := some 0, chargingTime := some 10, userId := some "u1" })
      (by decide) (by decide) (by decide) (by decide)).2.2.1⟩

/-! ## Claim C6: validation of the duration parameter -/

/-- C6 (amended): the only parameter validation of
`POST /api/request-charging` is `!spotId || chargingTime === undefined ||
!userId`: a missing spot id, an undefined duration, or an empty user id
fails with the missing-parameter error and leaves the state unchanged.  A
present non-positive `durationMinutes` is *not* rejected. -/
theorem C6_only_missing_params_rejected (u : String) (i : Nat) (ct? : Option ℚ)
    (now : Nat) (s : State) (h : i = 0 ∨ ct? = none ∨ u = "") :
    requestCharging u i ct? now s = (ReqResult.missingParams, s) := by
  unfold requestCharging
  rw [if_pos h]

theorem C6_witness :
    ((0 : Nat) = 0 ∨ (some (5 : ℚ) : Option ℚ) = none ∨ "u1" = "") ∧
    requestCharging "u1" 0 (some 5) 0 initState = (ReqResult.missingParams, initState) :=
  ⟨Or.inl rfl, C6_only_missing_params_rejected "u1" 0 (some 5) 0 initState (Or.inl rfl)⟩

/-- C6 (counterexample to the claim as stated): a request with
`durationMinutes = 0` (non-positive, but present) is not rejected with
InvalidArgument: it dispatches the cable and mutates the registry. -/
theorem C6_counterexample :
    (requestCharging "u1" 7 (some 0) 0 initState).1 = ReqResult.dispatched ∧
    (requestCharging "u1" 7 (some 0) 0 initState).2 ≠ initState := by
  decide

/-! ## Claim C3: the finish tick resets expired spots but promotes nothing -/

/-- C3 (amended): for every `'結束'` spot whose computed completion instant
(`setMinutes`-adjusted `startTime + chargingTime`) lies more than
`FINISH_LINGER_SECONDS` in the past, the periodic finish tick resets that
spot to Idle (clearing `startTime`, `chargingTime`, `userId` and
`moveStartTime`; `waitingTime` is retained) — but it performs *no*
promotion: the admission queue and every non-`'結束'` spot are left
completely unchanged, and `processNextChargingRequest` is never invoked
from this tick (promotion instead happens in the charge-completion tick at
the `'充電中' → '結束'` transition). -/
theorem C3_finish_tick_resets_without_promotion (s : State) (now : Nat) :
    (checkAndResetFinishedSpots now s).queue = s.queue ∧
    (checkAndResetFinishedSpots now s).spots.length = s.spots.length ∧
    ∀ k (hk : k < s.spots.length) (hk2 : k < (checkAndResetFinishedSpots now s).spots.length),
      ((s.spots.get ⟨k, hk⟩).status ≠ Status.finished →
        (checkAndResetFinishedSpots now s).spots.get ⟨k, hk2⟩ = s.spots.get ⟨k, hk⟩) ∧
      (∀ st, (s.spots.get ⟨k, hk⟩).status = Status.finished →
        (s.spots.get ⟨k, hk⟩).startTime = some st →
        ((now : ℚ) - ((finishTimeMs st ((s.spots.get ⟨k, hk⟩).chargingTime.getD 0)) : ℚ)) / 1000 > FINISH_LINGER_SECONDS →
        (checkAndResetFinishedSpots now s).spots.get ⟨k, hk2⟩ = { s.spots.get ⟨k, hk⟩ with status := Status.idle, startTime := none, chargingTime := none, userId := none, moveStartTime := none }) := by
  refine ⟨rfl, ?_, ?_⟩
  · unfold checkAndResetFinishedSpots
    exact List.length_map _ _
  · intro k hk hk2
    have hget : (checkAndResetFinishedSpots now s).spots.get ⟨k, hk2⟩
        = resetFinishedSpot now (s.spots.get ⟨k, hk⟩) := by
      unfold checkAndResetFinishedSpots
      exact List.get_map _
    constructor
    · intro hnf
      rw [hget]
      unfold resetFinishedSpot
      rw [if_neg hnf]
    · intro st hfin hst hexp
      rw [hget]
      unfold resetFinishedSpot
      rw [if_pos hfin, hst]
      dsimp only
      rw [if_pos hexp]

theorem C3_witness :
    (checkAndResetFinishedSpots 700000 finState).queue = finState.queue ∧
    (checkAndResetFinishedSpots 700000 finState).spots.get ⟨0, by decide⟩ = { finState.spots.get ⟨0, by decide⟩ with status := Status.idle, startTime := none, chargingTime := none, userId := none, moveStartTime := none } :=
  ⟨(C3_finish_tick_resets_without_promotion finState 700000).1,
   ((C3_finish_tick_resets_without_promotion finState 700000).2.2 0 (by decide) (by decide)).2
     30000 (by decide) (by decide) (by with_unfolding_all decide)⟩

/-- C3 (counterexample to the claim as stated): in `finState`, spot 7 is
Finished with its completion instant (630000 ms) lying 70 s — more than
`FINISH_LINGER_SECONDS` — in the past, and spot 8 heads the queue in
waiting state.  The tick resets spot 7 to Idle, yet the freed cable is
*not* dispatched to the queue head: spot 8 is still `'等待中'` (not Moving)
and its entry is still queued, even after the companion charge-completion
tick also runs at the same instant. -/
theorem C3_counterexample :
    (∃ sp ∈ (checkAndResetFinishedSpots 700000 finState).spots,
        sp.spotId = 7 ∧ sp.status = Status.idle) ∧
    (∀ sp ∈ (chargeCompletionTick 700000 (checkAndResetFinishedSpots 700000 finState)).spots,
        sp.spotId = 8 → sp.status = Status.waiting ∧ sp.moveStartTime = none) ∧
    (chargeCompletionTick 700000 (checkAndResetFinishedSpots 700000 finState)).queue
      = finState.queue := by
  with_unfolding_all decide

/-! ## Claim C5: what the duplicate check actually inspects -/

/-- C5 (amended): with all three parameters present,
`POST /api/request-charging` fails with the duplicate error iff the user
already owns a spot whose status is `'充電中'` (covering both Moving and
Charging) or `'等待中'` (queued-idle).  The duplicate check inspects only
the spot registry — a stale queue entry with no owning spot does not
trigger it.  When the request fails this way, the registry and queue are
left unchanged. -/
theorem C5_duplicate_iff_owned_spot (s : State) (u : String) (i : Nat) (c : ℚ) (now : Nat)
    (hu : u ≠ "") (hi : i ≠ 0) :
    ((requestCharging u i (some c) now s).1 = ReqResult.duplicate ↔
      ∃ sp ∈ s.spots, sp.userId = some u ∧
        (sp.status = Status.charging ∨ sp.status = Status.waiting)) ∧
    ((requestCharging u i (some c) now s).1 = ReqResult.duplicate →
      (requestCharging u i (some c) now s).2 = s) := by
  have hcond : ¬ (i = 0 ∨ (some c : Option ℚ) = none ∨ u = "") := by simp [hi, hu]
  unfold requestCharging
  rw [if_neg hcond]
  dsimp only
  cases hdup : s.spots.find? (fun sp => decide (sp.userId = some u ∧
      (sp.status = Status.charging ∨ sp.status = Status.waiting))) with
  | some sp =>
      refine ⟨⟨fun _ => ?_, fun _ => rfl⟩, fun _ => rfl⟩
      have hmem := List.mem_of_find?_eq_some hdup
      have hprop := List.find?_some hdup
      simp only [decide_eq_true_eq] at hprop
      exact ⟨sp, hmem, hprop⟩
  | none =>
      have hne : ¬ ∃ sp ∈ s.spots, sp.userId = some u ∧
          (sp.status = Status.charging ∨ sp.status = Status.waiting) := by
        rintro ⟨sp, hmem, hprop⟩
        have := List.find?_eq_none.mp hdup sp hmem
        simp only [decide_eq_true_eq] at this
        exact this hprop
      dsimp only
      refine ⟨⟨fun hd => ?_, fun hex => absurd hex hne⟩, fun hd => ?_⟩
      · exfalso
        split at hd
        · simp at hd
        · split at hd
          · simp at hd
          · split at hd
            · simp at hd
            · simp at hd
      · exfalso
        split at hd
        · simp at hd
        · split at hd
          · simp at hd
          · split at hd
            · simp at hd
            · simp at hd

theorem C5_witness :
    (∃ sp ∈ promoState.spots, sp.userId = some "u2" ∧
      (sp.status = Status.charging ∨ sp.status = Status.waiting)) ∧
    (requestCharging "u2" 9 (some 5) 0 promoState).1 = ReqResult.duplicate ∧
    (requestCharging "u2" 9 (some 5) 0 promoState).2 = promoState := by
  have h := C5_duplicate_iff_owned_spot promoState "u2" 9 5 0 (by decide) (by decide)
  have hex : ∃ sp ∈ promoState.spots, sp.userId = some "u2" ∧
      (sp.status = Status.charging ∨ sp.status = Status.waiting) := by decide
  exact ⟨hex, h.1.mpr hex, h.2 (h.1.mpr hex)⟩

/-- C5 (counterexample to the claim as stated): `c5final` is reachable and
leaves user `"u3"` with a queue entry but no owned spot (the stale timer of
a cancelled dispatch stamped `startTime` on the promoted spot, so the
promotion's own callback no-oped and never deleted the entry).  A fresh
request by `"u3"` then succeeds with a dispatch instead of failing with
DuplicateRequest, refuting the "or an existing queue entry" half of the
claimed equivalence. -/
theorem C5_counterexample :
    Reachable c5final ∧
    (∃ e ∈ c5final.queue, e.userId = "u3") ∧
    (∀ sp ∈ c5final.spots, ¬ sp.userId = some "u3") ∧
    (requestCharging "u3" 7 (some 5) 350000 c5final).1 = ReqResult.dispatched := by
  refine ⟨?_, by with_unfolding_all decide, by with_unfolding_all decide,
    by with_unfolding_all decide⟩
  exact Reachable.finishTick 340000 (Reachable.chargeTick 330000
    (Reachable.queueArrival c5entry 35000 (Reachable.directArrival 9 32000
      (Reachable.directArrival 7 30000 (Reachable.cancel "u2" 9 5000
        (Reachable.request "u3" 7 (some 5) 3000 (Reachable.request "u2" 9 (some 5) 2000
          (Reachable.cancel "u1" 7 1000
            (Reachable.request "u1" 7 (some 5) 0 Reachable.init)))))))))

/-! ## Claim C7: the request/cancel round trip -/

theorem find?_updateFirst_strengthen (l : List α) (p q : α → Bool) (f : α → α) (a : α)
    (hfind : l.find? p = some a) (himp : ∀ x, q x = true → p x = true)
    (hq : q (f a) = true) :
    (updateFirst l p f).find? q = some (f a) := by
  induction l with
  | nil => simp at hfind
  | cons b t ih =>
      by_cases hb : p b = true
      · rw [List.find?_cons_of_pos _ hb] at hfind
        injection hfind with hba
        subst hba
        rw [updateFirst_cons, if_pos hb]
        rw [List.find?_cons_of_pos _ hq]
      · rw [List.find?_cons_of_neg _ hb] at hfind
        have hqb : ¬ q b = true := fun hqq => hb (himp b hqq)
        rw [updateFirst_cons, if_neg hb]
        rw [List.find?_cons_of_neg _ hqb]
        exact ih hfind

theorem processNext_noop_of_no_waiting (now : Nat) (s : State)
    (h : ∀ e ∈ s.queue, findWaiting s.spots e.spotId = none) :
    processNextChargingRequest now s = s := by
  unfold processNextChargingRequest
  cases hh : (sortQ s.queue).head? with
  | none => rfl
  | some e =>
      dsimp only
      have he : e ∈ s.queue := by
        rw [← mem_sortQ]
        exact List.mem_of_mem_head? (by rw [hh]; exact Option.mem_def.mpr rfl)
      rw [h e he]

theorem updateFirst_dispatch_cancel_roundtrip (l : List Spot) (i : Nat) (u : String)
    (c : ℚ) (t1 : Nat)
    (hclear : ∀ sp ∈ l, sp.spotId = i → sp = freshSpot i) :
    updateFirst (updateFirst l (fun x => decide (x.spotId = i)) (fun x => { x with status := Status.charging, moveStartTime := some t1, chargingTime := some c, userId := some u })) (fun x => decide (x.spotId = i ∧ x.userId = some u)) cancelReset = l := by
  induction l with
  | nil => rfl
  | cons a t ih =>
      by_cases pa : a.spotId = i
      · have ha := hclear a (List.mem_cons_self a t) pa
        subst ha
        rw [updateFirst_cons, if_pos (by simp [freshSpot])]
        rw [updateFirst_cons, if_pos (by simp [freshSpot])]
        rfl
      · rw [updateFirst_cons, if_neg (by simp [pa])]
        rw [updateFirst_cons, if_neg (by simp [pa])]
        rw [ih (fun sp hsp hspi => hclear sp (List.mem_cons_of_mem a hsp) hspi)]

/-- C7 (amended): RequestCharging-then-CancelCharging restores the exact
pre-request registry and queue in the immediate-dispatch case, *provided*
the target spot is fully clear beforehand (all optional fields `none` — in
particular no stale `waitingTime`), no queue entry matches the same
user/spot pair, and no queued entry targets a waiting spot.  Without the
stale-`waitingTime` proviso the round trip is not state-restoring, because
the cancel nulls `waitingTime` that the finish tick had left behind. -/
theorem C7_roundtrip_restores_clear_spot (s : State) (u : String) (i : Nat) (c : ℚ)
    (t1 t2 : Nat) (hu : u ≠ "") (hi : i ≠ 0)
    (hclear : ∀ sp ∈ s.spots, sp.spotId = i → sp = freshSpot i)
    (hexist : s.spots.find? (fun x => decide (x.spotId = i)) = some (freshSpot i))
    (hdup : ∀ sp ∈ s.spots, ¬ (sp.userId = some u ∧
      (sp.status = Status.charging ∨ sp.status = Status.waiting)))
    (hfree : ∀ sp ∈ s.spots, sp.status ≠ Status.charging)
    (hq1 : ∀ e ∈ s.queue, ¬ (e.userId = u ∧ e.spotId = i))
    (hq2 : ∀ e ∈ s.queue, findWaiting s.spots e.spotId = none) :
    (requestCharging u i (some c) t1 s).1 = ReqResult.dispatched ∧
    (cancelCharging u i t2 (requestCharging u i (some c) t1 s).2).2 = s := by
  have hcond : ¬ (i = 0 ∨ (some c : Option ℚ) = none ∨ u = "") := by simp [hi, hu]
  have hdupn : s.spots.find? (fun sp => decide (sp.userId = some u ∧
      (sp.status = Status.charging ∨ sp.status = Status.waiting))) = none := by
    rw [List.find?_eq_none]
    intro x hx
    simpa using hdup x hx
  have hfreen : s.spots.find? (fun x => decide (x.status = Status.charging)) = none := by
    rw [List.find?_eq_none]
    intro x hx
    simpa using hfree x hx
  have hreq : requestCharging u i (some c) t1 s = (ReqResult.dispatched, { s with spots := updateFirst s.spots (fun x => decide (x.spotId = i)) (fun x => { x with status := Status.charging, moveStartTime := some t1, chargingTime := some c, userId := some u }) }) := by
    unfold requestCharging
    rw [if_neg hcond]
    dsimp only
    rw [hdupn]
    dsimp only
    rw [hexist]
    dsimp only
    rw [if_neg (by simp [freshSpot])]
    rw [hfreen]
  rw [hreq]
  refine ⟨rfl, ?_⟩
  have hfind2 := find?_updateFirst_strengthen s.spots
    (fun x => decide (x.spotId = i))
    (fun x => decide (x.spotId = i ∧ x.userId = some u))
    (fun x => { x with status := Status.charging, moveStartTime := some t1, chargingTime := some c, userId := some u })
    (freshSpot i) hexist
    (fun x hx => by
      simp only [decide_eq_true_eq] at hx ⊢
      exact hx.1)
    (by simp [freshSpot])
  unfold cancelCharging
  rw [if_neg (by simp [hi, hu])]
  dsimp only
  rw [hfind2]
  dsimp only
  rw [if_pos rfl]
  have hspots := updateFirst_dispatch_cancel_roundtrip s.spots i u c t1 hclear
  have hqueue : deleteFirst s.queue (fun e => decide (e.userId = u ∧ e.spotId = i))
      = s.queue :=
    deleteFirst_eq_of_forall_false _ _ (fun e he => by simpa using hq1 e he)
  rw [hspots, hqueue]
  exact processNext_noop_of_no_waiting t2 s hq2

theorem C7_witness :
    (requestCharging "u1" 7 (some 5) 100 initState).1 = ReqResult.dispatched ∧
    (cancelCharging "u1" 7 200 (requestCharging "u1" 7 (some 5) 100 initState).2).2
      = initState :=
  C7_roundtrip_restores_clear_spot initState "u1" 7 5 100 200 (by decide) (by decide)
    (by decide) (by decide) (by decide) (by decide) (by decide) (by decide)

/-- C7 (counterexample to the claim as stated): `c7pre` is reachable and
its spot 8 is idle but carries a stale `waitingTime` of 31/3 minutes left
behind by the finish tick.  A successful request for spot 8 immediately
followed by a cancel of the same user/spot does not restore the
pre-request state: the cancel nulls the stale `waitingTime`. -/
theorem C7_counterexample :
    Reachable c7pre ∧
    (requestCharging "u3" 8 (some 3) 1000000 c7pre).1 = ReqResult.dispatched ∧
    (cancelCharging "u3" 8 1000001 (requestCharging "u3" 8 (some 3) 1000000 c7pre).2).2
      ≠ c7pre := by
  refine ⟨?_, by with_unfolding_all decide, by with_unfolding_all decide⟩
  exact Reachable.finishTick 970000 (Reachable.chargeTick 960000
    (Reachable.queueArrival c7entry 660000 (Reachable.chargeTick 630000
      (Reachable.directArrival 7 30000 (Reachable.request "u2" 8 (some 5) 10000
        (Reachable.request "u1" 7 (some 10) 0 Reachable.init))))))

/-! ## Claim C4: the estimator walk matches the spec's schedule -/

theorem findWaiting_walkQueue (q : List QueueEntry) (spots : List Spot) (cum : ℚ)
    (i : Nat) (hni : ∀ e ∈ q, e.spotId ≠ i) :
    findWaiting (walkQueue q spots cum) i = findWaiting spots i := by
  induction q generalizing spots cum with
  | nil => rfl
  | cons e rest ih =>
      simp only [walkQueue]
      cases hf : findWaiting spots e.spotId with
      | none => exact ih _ _ (fun x hx => hni x (List.mem_cons_of_mem e hx))
      | some ws =>
          rw [ih _ _ (fun x hx => hni x (List.mem_cons_of_mem e hx))]
          unfold findWaiting
          apply find?_updateFirst_of_false
          intro a ha
          simp only [decide_eq_true_eq] at ha
          have hne : a.spotId ≠ i := by
            rw [ha.1]
            exact hni e (List.mem_cons_self e rest)
          constructor
          · simp [hne]
          · simp [hne]

theorem walkQueue_matches_spec : ∀ (q : List QueueEntry) (spots : List Spot) (cum : ℚ),
    (q.map (fun e => e.spotId)).Nodup →
    (∀ e ∈ q, (findWaiting spots e.spotId).isSome) →
    q.map (fun e => (findWaiting (walkQueue q spots cum) e.spotId).bind
        (fun sp => sp.waitingTime))
      = (specEtaSchedule cum (queueDurations spots q)).map some := by
  intro q
  induction q with
  | nil => intro spots cum _ _; rfl
  | cons e rest ih =>
      intro spots cum hnd hw
      simp only [List.map_cons, List.nodup_cons] at hnd
      obtain ⟨ws, hws⟩ := Option.isSome_iff_exists.mp (hw e (List.mem_cons_self e rest))
      have hws' : spots.find? (fun sp => decide (sp.spotId = e.spotId ∧
          sp.status = Status.waiting)) = some ws := hws
      have hwsP := List.find?_some hws'
      simp only [decide_eq_true_eq] at hwsP
      have hrestne : ∀ x ∈ rest, x.spotId ≠ e.spotId := by
        intro x hx hc
        exact hnd.1 (hc ▸ List.mem_map_of_mem (fun y => y.spotId) hx)
      have hwalk : walkQueue (e :: rest) spots cum = walkQueue rest (updateFirst spots (fun sp => decide (sp.spotId = e.spotId ∧ sp.status = Status.waiting)) (fun sp => { sp with waitingTime := some cum })) (cum + ws.chargingTime.getD 0 + CABLE_MOVING_TIME / 60) := by
        simp only [walkQueue, hws]
      have hdur : queueDurations spots (e :: rest)
          = ws.chargingTime.getD 0 :: queueDurations spots rest := by
        simp only [queueDurations, List.map_cons, hws]
      have hetaeq : ∀ x ∈ rest, findWaiting (updateFirst spots (fun sp => decide (sp.spotId = e.spotId ∧ sp.status = Status.waiting)) (fun sp => { sp with waitingTime := some cum })) x.spotId = findWaiting spots x.spotId := by
        intro x hx
        unfold findWaiting
        apply find?_updateFirst_of_false
        intro a ha
        simp only [decide_eq_true_eq] at ha
        have hne : a.spotId ≠ x.spotId := by
          rw [ha.1]
          intro hc
          exact hrestne x hx hc.symm
        constructor
        · simp [hne]
        · simp [hne]
      have hw2 : ∀ x ∈ rest, (findWaiting (updateFirst spots (fun sp => decide (sp.spotId = e.spotId ∧ sp.status = Status.waiting)) (fun sp => { sp with waitingTime := some cum })) x.spotId).isSome := by
        intro x hx
        rw [hetaeq x hx]
        exact hw x (List.mem_cons_of_mem e hx)
      have hdur2 : queueDurations (updateFirst spots (fun sp => decide (sp.spotId = e.spotId ∧ sp.status = Status.waiting)) (fun sp => { sp with waitingTime := some cum })) rest = queueDurations spots rest := by
        unfold queueDurations
        apply List.map_congr_left
        intro x hx
        rw [hetaeq x hx]
      have hfself : findWaiting (updateFirst spots (fun sp => decide (sp.spotId = e.spotId ∧ sp.status = Status.waiting)) (fun sp => { sp with waitingTime := some cum })) e.spotId = some { ws with waitingTime := some cum } := by
        unfold findWaiting
        exact find?_updateFirst_self spots _ _ ws hws' (by simp [hwsP.1, hwsP.2])
      rw [List.map_cons, hwalk, hdur]
      simp only [specEtaSchedule, List.map_cons]
      congr 1
      · rw [findWaiting_walkQueue rest _ _ e.spotId hrestne, hfself]
        rfl
      · rw [ih _ _ hnd.2 hw2, hdur2]

/-- C4: when a cable holder exists, `updateWaitingTimes` walks the admission
queue in ascending `requestTime` order starting from the holder's
cumulative remaining time (`initialCum`); each entry's target spot receives
the running cumulative as its `waitingEtaMinutes`, and only then that
spot's `requestedDurationMinutes` plus `CABLE_MOVING_TIME/60` minutes is
added before the next entry — i.e. the written ETAs are exactly the spec's
`specEtaSchedule` of the queued durations.  (Hypotheses: every queued entry
targets a distinct spot that is actually in `'等待中'` status, as the
spec's data model prescribes.) -/
theorem C4_estimator_walk_matches_spec (s : State) (now : Nat) (cs : Spot)
    (hcs : s.spots.find? (fun sp => decide (sp.status = Status.charging)) = some cs)
    (hnd : ((sortQ s.queue).map (fun e => e.spotId)).Nodup)
    (hw : ∀ e ∈ sortQ s.queue, (findWaiting s.spots e.spotId).isSome) :
    (sortQ s.queue).map (fun e =>
        (findWaiting (updateWaitingTimes now s).spots e.spotId).bind
          (fun sp => sp.waitingTime))
      = (specEtaSchedule (initialCum now cs)
          (queueDurations s.spots (sortQ s.queue))).map some := by
  unfold updateWaitingTimes
  rw [hcs]
  dsimp only
  exact walkQueue_matches_spec (sortQ s.queue) s.spots (initialCum now cs) hnd hw

theorem C4_witness :
    estState.spots.find? (fun sp => decide (sp.status = Status.charging)) = some estCs ∧
    (sortQ estState.queue).map (fun e =>
        (findWaiting (updateWaitingTimes 120000 estState).spots e.spotId).bind
          (fun sp => sp.waitingTime))
      = (specEtaSchedule (initialCum 120000 estCs)
          (queueDurations estState.spots (sortQ estState.queue))).map some :=
  ⟨by decide,
   C4_estimator_walk_matches_spec estState 120000 estCs (by decide) (by decide) (by decide)⟩
